import Mathlib

attribute [local semireducible] Rat.mul Rat.add Rat.sub Rat.inv

/-!
Verification of the monthly-hours reporting scripts (MonthlyHoursW13060848.js
and its optimized variant). The JavaScript core is shallowly embedded below:
sheet cell values become the inductive type `TimeValue`, JS numbers become `ℚ`,
JS strings become `String` (parsed through their character lists), and each
source function becomes a computable Lean definition with the same branching
structure. Theorems about the claims of the specification follow the
definitions.
-/

/-- JS whitespace class membership, restricted to the common ASCII whitespace
characters that can occur in the sheet data handled by the scripts. -/
def isSpaceJS (c : Char) : Bool :=
  decide (c = ' ' ∨ c = '\t' ∨ c = '\n' ∨ c = '\r')

/-- The JS regex class `\d`: exactly the ASCII digits 0-9. -/
def isDigitJS (c : Char) : Bool :=
  decide ('0' ≤ c ∧ c ≤ '9')

/-- Numeric value of an ASCII digit character. -/
def digitVal (c : Char) : Nat :=
  c.toNat - '0'.toNat

/-- `String.prototype.trim`: strip whitespace from both ends. -/
def jsTrim (cs : List Char) : List Char :=
  ((cs.dropWhile isSpaceJS).reverse.dropWhile isSpaceJS).reverse

/-- Leading decimal-digit run of a string, as a natural number; `none` when the
string has no leading digit (the `NaN` outcome of JS `parseInt`). -/
def parseNatDigits (cs : List Char) : Option Nat :=
  let ds := cs.takeWhile isDigitJS
  if ds = [] then none
  else some (ds.foldl (fun a c => a * 10 + digitVal c) 0)

/-- JS `parseInt` on a string (decimal): skip leading whitespace, read an
optional sign and then the longest digit prefix; `none` models `NaN`. -/
def parseIntJS (cs : List Char) : Option Int :=
  let cs := cs.dropWhile isSpaceJS
  match cs with
  | '-' :: rest => (parseNatDigits rest).map (fun n => -(n : Int))
  | '+' :: rest => (parseNatDigits rest).map (fun n => (n : Int))
  | _ => (parseNatDigits cs).map (fun n => (n : Int))

/-- Tail of the AM/PM regex `\s*(AM|PM)` (case-insensitive): drop whitespace,
then require AM or PM. Returns `some isPM` on success. Greediness of `\s*` is
exact here because the letters A/P/M are not whitespace. -/
def spacesThenAMPM (cs : List Char) : Option Bool :=
  match cs.dropWhile isSpaceJS with
  | a :: m :: _ =>
    if (a = 'A' ∨ a = 'a') ∧ (m = 'M' ∨ m = 'm') then some false
    else if (a = 'P' ∨ a = 'p') ∧ (m = 'M' ∨ m = 'm') then some true
    else none
  | _ => none

/-- The part of the AM/PM regex after the hour digits: the optional greedy
group `(?::(\d{2}))?` followed by `\s*(AM|PM)`, with regex backtracking (try
the colon group first, then without it). -/
def afterDigitsAMPM (cs : List Char) : Option Bool :=
  let withColon :=
    match cs with
    | ':' :: d1 :: d2 :: rest =>
      if isDigitJS d1 ∧ isDigitJS d2 then spacesThenAMPM rest else none
    | _ => none
  match withColon with
  | some r => some r
  | none => spacesThenAMPM cs

/-- Attempt of the regex `(\d{1,2})(?::(\d{2}))?\s*(AM|PM)` anchored at the
current position: the greedy `\d{1,2}` tries two digits first and backtracks
to one. Returns the captured hour and whether the marker was PM. -/
def ampmAt (cs : List Char) : Option (Nat × Bool) :=
  match cs with
  | c1 :: rest =>
    if isDigitJS c1 then
      let two :=
        match rest with
        | c2 :: rest2 =>
          if isDigitJS c2 then
            (afterDigitsAMPM rest2).map (fun pm => (10 * digitVal c1 + digitVal c2, pm))
          else none
        | [] => none
      match two with
      | some r => some r
      | none => (afterDigitsAMPM rest).map (fun pm => (digitVal c1, pm))
    else none
  | [] => none

/-- JS `str.match` for the AM/PM regex: leftmost match wins. -/
def findAMPM : List Char → Option (Nat × Bool)
  | [] => none
  | cs@(_ :: t) =>
    match ampmAt cs with
    | some r => some r
    | none => findAMPM t

/-- Attempt of the regex `(\d{1,2}):` anchored at the current position
(greedy: two digits before the colon are preferred over one). -/
def hourColonAt (cs : List Char) : Option Nat :=
  match cs with
  | c1 :: rest =>
    if isDigitJS c1 then
      let two :=
        match rest with
        | c2 :: ':' :: _ =>
          if isDigitJS c2 then some (10 * digitVal c1 + digitVal c2) else none
        | _ => none
      match two with
      | some r => some r
      | none =>
        match rest with
        | ':' :: _ => some (digitVal c1)
        | _ => none
    else none
  | [] => none

/-- JS `str.match` for the 24-hour regex `(\d{1,2}):`: leftmost match wins. -/
def findHourColon : List Char → Option Nat
  | [] => none
  | cs@(_ :: t) =>
    match hourColonAt cs with
    | some r => some r
    | none => findHourColon t

/-- A sheet cell value fed to the time-parsing code: a `Date` object (of which
only `getHours`, always in 0..23, is consumed), a JS number (fraction of a
day, modelled as a rational), a string, or an empty/undefined cell. -/
inductive TimeValue where
  | date (hours : Fin 24)
  | num (q : ℚ)
  | str (s : String)
  | null
deriving DecidableEq

/-- The string branch of `parseHourFromTime`: trim, try the AM/PM regex (12AM
becomes 0, PM adds 12 except for 12PM), then the `H:` 24-hour regex, then a
bare `parseInt`; 0 when everything fails. -/
def parseTimeChars (cs : List Char) : Int :=
  let t := jsTrim cs
  match findAMPM t with
  | some (h, pm) =>
    if h = 12 ∧ ¬pm then 0
    else if h ≠ 12 ∧ pm then (h : Int) + 12
    else (h : Int)
  | none =>
    match findHourColon t with
    | some h => (h : Int)
    | none =>
      match parseIntJS t with
      | some n => n
      | none => 0

/-- `parseHourFromTime` from the source: falsy non-zero inputs give 0, `Date`
objects give their hour, numbers are fractions of a day (`Math.floor` of
`q * 24`, written with the computable `Rat.floor`), strings go through
`parseTimeChars`. -/
def parseHourFromTime : TimeValue → Int
  | .null => 0
  | .date h => (h : Int)
  | .num q => Rat.floor (q * 24)
  | .str s => if s = "" then 0 else parseTimeChars s.data

/-- `formatTimeAMPM` from the source: 0 is 12AM, 24 is the Midnight sentinel,
12 is 12PM, otherwise the 12-hour clock label. -/
def formatTimeAMPM (hour : Int) : String :=
  if hour = 0 then "12AM"
  else if hour = 24 then "Midnight"
  else if hour = 12 then "12PM"
  else if hour < 12 then toString hour ++ "AM"
  else toString (hour - 12) ++ "PM"

/-- The canonical weekday names, Sunday first, as in the source `dayNames`. -/
def dayNamesList : List String :=
  ["Sunday", "Monday", "Tuesday", "Wednesday", "Thursday", "Friday", "Saturday"]

/-- One opening interval of a weekday: the `{open, close}` object the scripts
store in `dayOpeningHours`. -/
structure OpenInterval where
  openH : Int
  closeH : Int
deriving DecidableEq

/-- One row of the ClubInfo `A9:B25` block: the day-name cell and the
`"HH:MM-HH:MM"` cell, with an empty cell modelled as the empty string (both
are falsy in the JS truthiness tests the source performs). -/
structure ConfigRow where
  dayName : String
  hoursString : String
deriving DecidableEq

/-- JS `String.prototype.split` on a single separator character. -/
def jsSplit (sep : Char) : List Char → List (List Char)
  | [] => [[]]
  | a :: as =>
    if a = sep then [] :: jsSplit sep as
    else
      match jsSplit sep as with
      | s :: ss => (a :: s) :: ss
      | [] => [[a]]

/-- First segment of `str.split(sep)`, i.e. `split(sep)[0]`. -/
def firstSeg (sep : Char) (cs : List Char) : List Char :=
  cs.takeWhile (· != sep)

/-- JS `str.indexOf(needle) >= 0`: the needle occurs as a contiguous
substring. -/
def listHasSub (needle : List Char) : List Char → Bool
  | [] => needle.isPrefixOf []
  | hay@(_ :: t) => needle.isPrefixOf hay || listHasSub needle t

/-- Close-hour parsing of the list layout (A): `parseInt` of the part before
the colon, then the midnight sentinel rule of the source — a literal
`"24:00"`, or a parsed 0 while the string contains `"00:00"`, becomes 24.
`none` models the `NaN` outcome that makes the row invalid. -/
def parseCloseHourA (closeTime : List Char) : Option Int :=
  let c0 := parseIntJS (firstSeg ':' closeTime)
  if closeTime = "24:00".data ∨ (c0 = some 0 ∧ listHasSub "00:00".data closeTime) then
    some 24
  else c0

/-- Parsing of one `"HH:MM-HH:MM"` cell of the list layout: split on the
hyphen (exactly two parts required), trim both sides, `parseInt` the hour
digits, apply the midnight sentinel to the close side, and reject the row
when either hour is `NaN`. -/
def parseHoursRangeA (hoursString : String) : Option (Int × Int) :=
  match jsSplit '-' hoursString.data with
  | [p0, p1] =>
    let openTime := jsTrim p0
    let closeTime := jsTrim p1
    match parseIntJS (firstSeg ':' openTime), parseCloseHourA closeTime with
    | some o, some c => some (o, c)
    | _, _ => none
  | _ => none

/-- The mutable parsing state of `calculateAvailableHours`: the
`dayOpeningHours` object (an insertion-ordered key/value list), and the running
`earliestHour` / `latestHour` extremes (sentinels 24 and 0). -/
structure ScheduleState where
  days : List (String × OpenInterval)
  earliest : Int
  latest : Int
deriving DecidableEq

/-- JS object property assignment `obj[k] = v`: replace the binding of an
existing key, otherwise append the new key. -/
def upsert : List (String × OpenInterval) → String → OpenInterval → List (String × OpenInterval)
  | [], k, v => [(k, v)]
  | (k', v') :: rest, k, v =>
    if k' = k then (k, v) :: rest else (k', v') :: upsert rest k v

/-- JS object property read `obj[k]`, `none` for `undefined`. -/
def lookupDay : List (String × OpenInterval) → String → Option OpenInterval
  | [], _ => none
  | (k', v) :: rest, k => if k' = k then some v else lookupDay rest k

/-- One iteration of the list-layout (A9:B25) parsing loop: rows with a falsy
cell are passed over, a parsed row is stored in `dayOpeningHours` and the
running extremes are updated. -/
def stepLayoutA (st : ScheduleState) (row : ConfigRow) : ScheduleState :=
  if row.dayName ≠ "" ∧ row.hoursString ≠ "" then
    match parseHoursRangeA row.hoursString with
    | some oc =>
      ⟨upsert st.days row.dayName ⟨oc.1, oc.2⟩,
       if oc.1 < st.earliest then oc.1 else st.earliest,
       if oc.2 > st.latest then oc.2 else st.latest⟩
    | none => st
  else st

/-- List-layout parsing over the whole `A9:B25` block. -/
def parseLayoutA (rows : List ConfigRow) : ScheduleState :=
  rows.foldl stepLayoutA ⟨[], 24, 0⟩

/-- Close-hour parsing of the grid layout (B): `parseHourFromTime` with a
parsed 0 promoted to the midnight sentinel 24. -/
def parseCloseHourB (closeTime : TimeValue) : Int :=
  let c := parseHourFromTime closeTime
  if c = 0 then 24 else c

/-- One iteration of the grid-layout (D5:K7) parsing loop for weekday index
`i` (0 = Sunday): open and close cells sit at row indices 1 and 2, column
`i + 1`, of the 3 × 8 block. -/
def stepLayoutB (rng : ℕ → ℕ → TimeValue) (st : ScheduleState) (i : ℕ) : ScheduleState :=
  let dayName := dayNamesList.getD i ""
  let o := parseHourFromTime (rng 1 (i + 1))
  let c := parseCloseHourB (rng 2 (i + 1))
  ⟨upsert st.days dayName ⟨o, c⟩,
   if o < st.earliest then o else st.earliest,
   if c > st.latest then c else st.latest⟩

/-- Grid-layout parsing: all 7 weekdays of the `D5:K7` block. -/
def parseLayoutB (rng : ℕ → ℕ → TimeValue) : ScheduleState :=
  (List.range 7).foldl (stepLayoutB rng) ⟨[], 24, 0⟩

/-- The facility configuration read once from the ClubInfo tab: the capacity
cell `D5`, the list-layout block `A9:B25`, and the grid-layout block `D5:K7`
(as a total function over its row/column indices). -/
structure ClubSheet where
  maxHoursPerHour : ℚ
  openingRows : List ConfigRow
  gridRange : ℕ → ℕ → TimeValue

/-- Layout selection of the source: the list layout is used when at least one
of its rows has both cells truthy. -/
def hasTraditionalFormat (cfg : ClubSheet) : Bool :=
  cfg.openingRows.any fun r => decide (r.dayName ≠ "") && decide (r.hoursString ≠ "")

/-- The schedule state after layout selection and parsing, before the
default-fallback check. -/
def parsedScheduleOf (cfg : ClubSheet) : ScheduleState :=
  if hasTraditionalFormat cfg then parseLayoutA cfg.openingRows
  else parseLayoutB cfg.gridRange

/-- The degenerate-schedule test of the source safety check: `earliestHour`
still at its sentinel 24, `latestHour` still at its sentinel 0, or no weekday
entries at all. -/
def scheduleIsDegenerate (st : ScheduleState) : Prop :=
  st.earliest = 24 ∨ st.latest = 0 ∨ st.days = []

instance (st : ScheduleState) : Decidable (scheduleIsDegenerate st) := by
  unfold scheduleIsDegenerate; infer_instance

/-- The default substitution of the safety check: every canonical weekday is
assigned open 8 / close 23 (existing entries for those keys are overwritten;
the object is not cleared first), and the extremes become 8 and 23. -/
def defaultFallback (st : ScheduleState) : ScheduleState :=
  ⟨dayNamesList.foldl (fun ds n => upsert ds n ⟨8, 23⟩) st.days, 8, 23⟩

/-- Schedule resolution of `calculateAvailableHours`: parse the selected
layout, then substitute the default schedule when the result is degenerate. -/
def resolveSchedule (cfg : ClubSheet) : ScheduleState :=
  let st := parsedScheduleOf cfg
  if scheduleIsDegenerate st then defaultFallback st else st

/-- Gregorian leap-year rule, as implemented by the JS `Date` calendar. -/
def isLeapYear (y : ℕ) : Bool :=
  decide (y % 4 = 0 ∧ (y % 100 ≠ 0 ∨ y % 400 = 0))

/-- `new Date(year, monthNum, 0).getDate()`: the number of days of month
`m` (1-12) in year `y`. -/
def daysInMonthOf (m y : ℕ) : ℕ :=
  if m = 2 then (if isLeapYear y then 29 else 28)
  else if m = 4 ∨ m = 6 ∨ m = 9 ∨ m = 11 then 30
  else 31

/-- Month offsets of the Sakamoto day-of-week formula. -/
def sakamotoTable : List ℕ :=
  [0, 3, 2, 5, 0, 3, 5, 1, 4, 6, 2, 4]

/-- `new Date(y, m - 1, d).getDay()` for a Gregorian date with a 4-digit
year: 0 = Sunday .. 6 = Saturday (Sakamoto congruence). -/
def dayOfWeekIdx (y m d : ℕ) : ℕ :=
  let y' := if m < 3 then y - 1 else y
  (y' + y' / 4 - y' / 100 + y' / 400 + sakamotoTable.getD (m - 1) 0 + d) % 7

/-- One entry of the day-of-week cache. -/
structure DayInfo where
  dayName : String
  dayIdx : ℕ
deriving DecidableEq

/-- `buildDayOfWeekCache`: weekday name and index for every day of the target
month (modelled as a total function; the source materialises days
1..daysInMonth). -/
def buildDayOfWeekCache (monthNum year : ℕ) : ℕ → DayInfo := fun day =>
  let i := dayOfWeekIdx year monthNum day
  ⟨dayNamesList.getD i "", i⟩

/-- The inclusive integer interval `[lo..hi]`, as built by the source loop
`for (hour = lo; hour <= hi; hour++)`. -/
def intsFromTo (lo hi : Int) : List Int :=
  (List.range (hi + 1 - lo).toNat).map fun i => lo + i

/-- Cell read of a 2-D grid, row-major (out-of-range reads never occur in the
modelled runs; 0 is the default). -/
def cellAt (g : List (List ℚ)) (r c : ℕ) : ℚ :=
  (g.getD r []).getD c 0

/-- The value returned by `calculateAvailableHours`. -/
structure AvailabilityData where
  availableGrid : List (List ℚ)
  timeRows : List Int
  daysInMonth : ℕ
  maxHoursPerHour : ℚ
  earliestHour : Int
  latestHour : Int
  days : List (String × OpenInterval)

/-- `calculateAvailableHours`: resolve the schedule, build the time rows from
`earliestHour` to `lastHourRow` (`latestHour - 1`, or 23 when the latest hour
is the midnight sentinel 24; an inverted range forces the default 8..23), and
fill the availability grid — `maxHoursPerHour` where the weekday opening
interval covers the slot hour, 0 elsewhere or when the weekday has no
entry. -/
def calculateAvailableHours (cfg : ClubSheet) (monthNum year : ℕ) : AvailabilityData :=
  let st := resolveSchedule cfg
  let dim := daysInMonthOf monthNum year
  let cache := buildDayOfWeekCache monthNum year
  let lastHourRow : Int := if st.latest = 24 then 23 else st.latest - 1
  let p : Int × Int :=
    if st.earliest > lastHourRow then (8, 23) else (st.earliest, lastHourRow)
  let timeRows := intsFromTo p.1 p.2
  let grid := timeRows.map fun hour =>
    (List.range dim).map fun dIdx =>
      match lookupDay st.days (cache (dIdx + 1)).dayName with
      | some oi => if oi.openH ≤ hour ∧ hour < oi.closeH then cfg.maxHoursPerHour else 0
      | none => 0
  ⟨grid, timeRows, dim, cfg.maxHoursPerHour, p.1, st.latest, st.days⟩

/-- The parsed calendar components the aggregation reads off a booking date:
`getDate()`, `getMonth() + 1` and `getFullYear()` of `new Date(dateValue)`. -/
structure CalendarDate where
  day : ℕ
  month : ℕ
  year : ℕ
deriving DecidableEq

/-- The date cell of a booking row: either empty (falsy, the row is skipped)
or a value that `new Date` resolves to a calendar date. -/
inductive DateCell where
  | empty
  | val (d : CalendarDate)
deriving DecidableEq

/-- One row of an `e_2` source tab, restricted to the columns the aggregation
consumes: date (column D), start time (column F) and the pre-split numeric
hours (column H; an empty cell and 0 are both falsy and modelled as 0). -/
structure BookingRow where
  dateValue : DateCell
  startTime : TimeValue
  hours : ℚ
deriving DecidableEq

/-- JS truthiness of a `TimeValue` cell: `Date` objects are truthy, a number
is truthy when nonzero, a string when nonempty, an empty cell is falsy. -/
def jsTruthy : TimeValue → Prop
  | .null => False
  | .date _ => True
  | .num q => q ≠ 0
  | .str s => s ≠ ""

instance (tv : TimeValue) : Decidable (jsTruthy tv) :=
  match tv with
  | .null => isFalse id
  | .date _ => isTrue trivial
  | .num q => inferInstanceAs (Decidable (q ≠ 0))
  | .str s => inferInstanceAs (Decidable (s ≠ ""))

/-- The inline start-time dispatch of the aggregation loop: `getHours()` for a
`Date`, `Math.floor(x * 24)` for a number, `parseHourFromTime(toString())` for
anything else. An empty cell cannot reach this code (the truthiness guard
skips it); its branch mirrors `parseHourFromTime` on the empty string. -/
def startHourOf : TimeValue → Int
  | .date h => (h : Int)
  | .num q => Rat.floor (q * 24)
  | .str s => parseHourFromTime (.str s)
  | .null => 0

/-- In-place update of one list element, as JS array assignment. -/
def setAt {α : Type} : List α → ℕ → (α → α) → List α
  | [], _, _ => []
  | a :: as, 0, f => f a :: as
  | a :: as, i + 1, f => a :: setAt as i f

/-- `dataGrid[r][c] += v`. -/
def addAtGrid (g : List (List ℚ)) (r c : ℕ) (v : ℚ) : List (List ℚ) :=
  setAt g r fun row => setAt row c fun x => x + v

/-- One iteration of the booking-aggregation loop: skip rows with a falsy
date, start time or hours cell; skip rows outside the target month/year;
resolve the start hour; locate the slot by `timeRows.indexOf` and the day by
`bookingDay - 1`; when both indices are in range, add the hours into the grid
and count the row as processed. -/
def stepBooking (monthNum year : ℕ) (timeRows : List Int) (daysInMonth : ℕ)
    (st : List (List ℚ) × ℕ) (row : BookingRow) : List (List ℚ) × ℕ :=
  match row.dateValue with
  | .empty => st
  | .val cd =>
    if jsTruthy row.startTime ∧ row.hours ≠ 0 then
      if cd.month = monthNum ∧ cd.year = year then
        let hour := startHourOf row.startTime
        match timeRows.findIdx? (· = hour) with
        | some hourIdx =>
          let dayIdx : Int := (cd.day : Int) - 1
          if 0 ≤ dayIdx ∧ dayIdx < (daysInMonth : Int) then
            (addAtGrid st.1 hourIdx dayIdx.toNat row.hours, st.2 + 1)
          else st
        | none => st
      else st
    else st

/-- The zero-filled booking grid (`timeRows.length` rows × `daysInMonth`
columns). -/
def initGrid (nRows nCols : ℕ) : List (List ℚ) :=
  List.replicate nRows (List.replicate nCols 0)

/-- The booking-aggregation pass over the source rows: the populated
`dataGrid` together with the processed-row count. -/
def aggregateBookings (monthNum year : ℕ) (timeRows : List Int) (daysInMonth : ℕ)
    (rows : List BookingRow) : List (List ℚ) × ℕ :=
  rows.foldl (stepBooking monthNum year timeRows daysInMonth)
    (initGrid timeRows.length daysInMonth, 0)

/-- `sumColumnH`: sum of the numeric cells of a column (non-numbers are
passed over). -/
def sumColumnH (values : List TimeValue) : ℚ :=
  values.foldl (fun sum v => match v with | .num q => sum + q | _ => sum) 0

/-- The `monthHours` tab-pair comparison message fragment: strict `===`
equality of the two column-H sums. -/
def comparisonResult (primary secondary : List TimeValue) : String :=
  if sumColumnH primary = sumColumnH secondary then "EQUAL" else "NOT EQUAL"

/-- Reconciliation status of the report. The sheet renders `ok` as the text
"OK" and `mismatch` as the red "Please Check" / "Check Sum" texts. -/
inductive ReconStatus where
  | ok
  | mismatch
deriving DecidableEq

/-- The E3 validation of `createHoursDaysTable`: mismatch exactly when the two
totals differ by more than the 0.01 tolerance. -/
def reconStatus (eTotal e2Total : ℚ) : ReconStatus :=
  if |eTotal - e2Total| > 1 / 100 then .mismatch else .ok

/-- Closed-cell test of the conditional-formatting pass: availability is 0. -/
def isClosedCell (availableHours : ℚ) : Bool :=
  decide (availableHours = 0)

/-- At-max-capacity test of the conditional-formatting pass: the cell value is
truthy, availability is positive, and the two are strictly equal. -/
def isAtMaxCapacity (cellValue availableHours : ℚ) : Bool :=
  decide (cellValue ≠ 0) && decide (availableHours > 0) && decide (cellValue = availableHours)

/-- The (row, day) coordinates the conditional-formatting loops visit, in
order: rows 0.., days 1..daysInMonth. -/
def cellCoords (nRows nDays : ℕ) : List (ℕ × ℕ) :=
  (List.range nRows).foldr
    (fun r acc => ((List.range nDays).map fun d0 => (r, d0 + 1)) ++ acc) []

/-- The conditional-formatting pass: the list of closed cells and the list of
at-max-capacity cells (coordinates as visited; the grids are read at
`[r][d - 1]`). -/
def classifyCells (timeRows : List Int) (daysInMonth : ℕ)
    (dataGrid availableGrid : List (List ℚ)) : List (ℕ × ℕ) × List (ℕ × ℕ) :=
  ((cellCoords timeRows.length daysInMonth).filter fun rd =>
      isClosedCell (cellAt availableGrid rd.1 (rd.2 - 1)),
   (cellCoords timeRows.length daysInMonth).filter fun rd =>
      isAtMaxCapacity (cellAt dataGrid rd.1 (rd.2 - 1)) (cellAt availableGrid rd.1 (rd.2 - 1)))

/-- The grand total of the data grid, accumulated column-by-column as in the
Total Dates row of the source. -/
def gridGrandTotal (g : List (List ℚ)) (daysInMonth : ℕ) : ℚ :=
  (List.range daysInMonth).foldl
    (fun acc c => acc + g.foldl (fun s row => s + row.getD c 0) 0) 0

/-- The data `createHoursDaysTable` computes and writes into the report tab
(presentation aside). -/
structure ReportData where
  eTotal : ℚ
  e2Total : ℚ
  status : ReconStatus
  availability : AvailabilityData
  timeRows : List Int
  dataGrid : List (List ℚ)
  processedCount : ℕ
  grandTotal : ℚ
  bookedStatus : ReconStatus

/-- The computational core of `createHoursDaysTable`: sum the two validation
tabs, compute the availability data, aggregate the bookings of the source tab
into the data grid, and derive the totals and status flags. The time-row
emptiness safety check of the source (unreachable, since the availability
calculation always returns a nonempty range) is kept. -/
def createHoursDaysTableCore (cfg : ClubSheet) (monthNum year : ℕ)
    (eTab e2Tab : List TimeValue) (bookings : List BookingRow) : ReportData :=
  let eTotal := sumColumnH eTab
  let e2Total := sumColumnH e2Tab
  let A := calculateAvailableHours cfg monthNum year
  let tr := if A.timeRows.isEmpty then intsFromTo 8 23 else A.timeRows
  let agg := aggregateBookings monthNum year tr A.daysInMonth bookings
  let grand := gridGrandTotal agg.1 A.daysInMonth
  ⟨eTotal, e2Total, reconStatus eTotal e2Total, A, tr, agg.1, agg.2, grand,
   if |grand - e2Total| < 1 / 100 then .ok else .mismatch⟩

/-- Concrete configuration used in several witnesses below: list layout with a
single valid row, Monday 9-10, one court. -/
def cfgMon : ClubSheet :=
  ⟨1, [⟨"Monday", "9:00-10:00"⟩], fun _ _ => .null⟩

/-- Concrete configuration whose list layout is selected (one truthy row) but
yields no parsed entries: the degenerate case that triggers the default
fallback. -/
def cfgDegen : ClubSheet :=
  ⟨1, [⟨"Monday", "closed"⟩], fun _ _ => .null⟩

/-- A booking row dated outside a September 2025 target month. -/
def rowJune : BookingRow :=
  ⟨.val ⟨1, 6, 2025⟩, .str "9:00 am", 1⟩

/-- A booking row whose hours cell is 0 (falsy). -/
def rowZeroHours : BookingRow :=
  ⟨.val ⟨1, 9, 2025⟩, .str "9:00 am", 0⟩

/-- Two one-hour bookings in the same Monday 9:00 slot: together they exceed
the single court of `cfgMon`. -/
def rowsOver : List BookingRow :=
  [⟨.val ⟨1, 9, 2025⟩, .str "9:00 am", 1⟩, ⟨.val ⟨1, 9, 2025⟩, .str "9:00 am", 1⟩]

/-- The computable `Rat.floor` agrees with the mathematical floor `⌊⌋`. -/
theorem ratFloor_eq_intFloor (q : ℚ) : Rat.floor q = ⌊q⌋ := by
  rw [Rat.floor_def']
  exact Rat.floor_def.symm

/-- `getD` through `map`, inside the bounds. -/
theorem getD_map_lt {α β : Type} (f : α → β) (dα : α) (dβ : β) :
    ∀ (l : List α) (r : ℕ), r < l.length → (l.map f).getD r dβ = f (l.getD r dα)
  | [], r, h => absurd h (Nat.not_lt_zero r)
  | _ :: _, 0, _ => rfl
  | _ :: as, r + 1, h => getD_map_lt f dα dβ as r (by simpa using h)

/-- `getD` on `List.range`, inside the bounds. -/
theorem getD_range_lt (n d : ℕ) (h : d < n) : (List.range n).getD d 0 = d := by
  rw [List.getD_eq_getElem?_getD, List.getElem?_range h]
  rfl

/-- Reading one cell of the availability-grid double map. -/
theorem grid_cell_eq (tr : List Int) (dim : ℕ) (g : Int → ℕ → ℚ) (r d : ℕ)
    (hr : r < tr.length) (hd : d < dim) :
    cellAt (tr.map fun hour => (List.range dim).map fun dIdx => g hour dIdx) r d =
      g (tr.getD r 0) d := by
  unfold cellAt
  rw [getD_map_lt _ 0 _ _ _ hr,
    getD_map_lt _ 0 _ _ _ (by simpa using hd), getD_range_lt dim d hd]

/-- `lookupDay` through one `upsert`. -/
theorem lookupDay_upsert (ds : List (String × OpenInterval)) (k n : String)
    (v : OpenInterval) :
    lookupDay (upsert ds k v) n = if k = n then some v else lookupDay ds n := by
  induction ds with
  | nil =>
    simp [upsert, lookupDay]
  | cons hd tl ih =>
    obtain ⟨k', v'⟩ := hd
    by_cases hk : k' = k
    · subst hk
      by_cases hn : k' = n <;> simp [upsert, lookupDay, hn]
    · by_cases hn : k' = n
      · subst hn
        have hkn : ¬k = k' := fun he => hk he.symm
        simp [upsert, lookupDay, hk, hkn]
      · simp [upsert, lookupDay, hk, hn, ih]

/-- `lookupDay` after folding `upsert` of a fixed value over a key list: any
key of the list (or any key already bound to that value) is bound to the
value afterwards. -/
theorem lookup_foldl_upsert_of (names : List String) (v : OpenInterval) :
    ∀ (ds : List (String × OpenInterval)) (n : String),
      (n ∈ names ∨ lookupDay ds n = some v) →
      lookupDay (names.foldl (fun acc k => upsert acc k v) ds) n = some v := by
  induction names with
  | nil =>
    intro ds n h
    rcases h with h | h
    · cases h
    · exact h
  | cons hd tl ih =>
    intro ds n h
    rw [List.foldl_cons]
    apply ih
    by_cases he : hd = n
    · right
      rw [lookupDay_upsert, if_pos he]
    · rcases h with h | h
      · rcases List.mem_cons.mp h with h1 | h1
        · exact absurd h1.symm he
        · left; exact h1
      · right
        rw [lookupDay_upsert, if_neg he]
        exact h

/-- A step of the aggregation loop that leaves the state unchanged leaves the
whole aggregation unchanged wherever the row sits among the others. -/
theorem aggregate_skip (monthNum year : ℕ) (timeRows : List Int) (daysInMonth : ℕ)
    (row : BookingRow)
    (hstep : ∀ st, stepBooking monthNum year timeRows daysInMonth st row = st)
    (pre post : List BookingRow) :
    aggregateBookings monthNum year timeRows daysInMonth (pre ++ row :: post) =
      aggregateBookings monthNum year timeRows daysInMonth (pre ++ post) := by
  unfold aggregateBookings
  rw [List.foldl_append, List.foldl_append, List.foldl_cons, hstep]

/-- Claim C2 counterexample: `parseHourFromTime` does not always land in
[0,23] — the number 1 (a full day) parses to hour 24, and the bare-integer
string "99" parses to hour 99. -/
theorem c2_hour_range_cex :
    parseHourFromTime (.num 1) = 24 ∧ ¬parseHourFromTime (.num 1) ≤ 23 ∧
    parseHourFromTime (.str "99") = 99 ∧ ¬parseHourFromTime (.str "99") ≤ 23 := by
  decide

/-- Claim C2 (amended): for the inputs whose parsed hour is bounded by
construction — structured date/times, fractional-day numbers in [0,1), and
the falsy empty cell — `parseHourFromTime` returns an hour in [0,23];
bare-integer and out-of-range string encodings can leave the range. -/
theorem c2_hour_range_amended (q : ℚ) (h0 : 0 ≤ q) (h1 : q < 1) (hd : Fin 24) :
    (0 ≤ parseHourFromTime (.num q) ∧ parseHourFromTime (.num q) ≤ 23) ∧
    (0 ≤ parseHourFromTime (.date hd) ∧ parseHourFromTime (.date hd) ≤ 23) ∧
    parseHourFromTime .null = 0 := by
  refine ⟨?_, ⟨?_, ?_⟩, rfl⟩
  · show 0 ≤ Rat.floor (q * 24) ∧ Rat.floor (q * 24) ≤ 23
    rw [ratFloor_eq_intFloor]
    constructor
    · exact Int.floor_nonneg.mpr (by positivity)
    · have hlt : ⌊q * 24⌋ < 24 := by
        rw [Int.floor_lt]
        push_cast
        nlinarith
      omega
  · show (0 : Int) ≤ ((hd : ℕ) : Int)
    positivity
  · show ((hd : ℕ) : Int) ≤ 23
    have := hd.isLt
    omega

/-- Claim C2 witness: the amended bound evaluated at the half-day fraction,
hour 5, and the empty cell. -/
theorem c2_hour_range_amended_wit :
    (0 ≤ parseHourFromTime (.num (1 / 2)) ∧ parseHourFromTime (.num (1 / 2)) ≤ 23) ∧
    (0 ≤ parseHourFromTime (.date 5) ∧ parseHourFromTime (.date 5) ≤ 23) ∧
    parseHourFromTime .null = 0 :=
  c2_hour_range_amended (1 / 2) (by norm_num) (by norm_num) 5

/-- Claim C3: the reconciliation status is `ok` exactly when the two totals
differ by at most the 0.01 tolerance (so 120.0 vs 120.0049 is `ok` and 120.0
vs 121.0 is a mismatch), and the check is advisory — the booking grid, the
processed-row count and the availability data of the report do not depend on
the two compared tabs, and the status field is exactly the comparison
outcome. -/
theorem c3_reconciliation_advisory :
    (∀ a b : ℚ, reconStatus a b = .ok ↔ |a - b| ≤ 1 / 100) ∧
    reconStatus 120 (1200049 / 10000) = .ok ∧
    reconStatus 120 121 = .mismatch ∧
    (∀ cfg monthNum year eTab eTab' e2Tab e2Tab' bookings,
      (createHoursDaysTableCore cfg monthNum year eTab e2Tab bookings).dataGrid =
        (createHoursDaysTableCore cfg monthNum year eTab' e2Tab' bookings).dataGrid ∧
      (createHoursDaysTableCore cfg monthNum year eTab e2Tab bookings).processedCount =
        (createHoursDaysTableCore cfg monthNum year eTab' e2Tab' bookings).processedCount ∧
      (createHoursDaysTableCore cfg monthNum year eTab e2Tab bookings).availability.availableGrid =
        (createHoursDaysTableCore cfg monthNum year eTab' e2Tab' bookings).availability.availableGrid) ∧
    (∀ cfg monthNum year eTab e2Tab bookings,
      (createHoursDaysTableCore cfg monthNum year eTab e2Tab bookings).status =
        reconStatus (sumColumnH eTab) (sumColumnH e2Tab)) := by
  refine ⟨?_, by decide, by decide, fun _ _ _ _ _ _ _ _ => ⟨rfl, rfl, rfl⟩,
    fun _ _ _ _ _ _ => rfl⟩
  intro a b
  unfold reconStatus
  split_ifs with h
  · constructor
    · intro hc; exact absurd hc (by simp)
    · intro hle; linarith
  · push_neg at h
    exact iff_of_true rfl h

/-- Claim C4: in both configuration layouts a close time parsed from the
string "24:00" or "00:00" yields the midnight sentinel 24 (also inside a full
list-layout range cell), never 0. -/
theorem c4_midnight_sentinel :
    parseCloseHourA "24:00".data = some 24 ∧
    parseCloseHourA "00:00".data = some 24 ∧
    parseHoursRangeA "09:00-24:00" = some (9, 24) ∧
    parseHoursRangeA "09:00-00:00" = some (9, 24) ∧
    parseCloseHourB (.str "24:00") = 24 ∧
    parseCloseHourB (.str "00:00") = 24 := by
  decide

/-- Claim C6: for every hour h in 0..23, parsing the label produced by
`formatTimeAMPM` recovers h; in particular "12AM" parses back to 0 and "12PM"
to 12. -/
theorem c6_ampm_roundtrip :
    (∀ h : Fin 24, parseHourFromTime (.str (formatTimeAMPM (h : Int))) = (h : Int)) ∧
    parseHourFromTime (.str "12AM") = 0 ∧
    parseHourFromTime (.str "12PM") = 12 := by
  decide

/-- Claim C9: the `monthHours` tab-pair validation reports EQUAL exactly when
the two column-H sums are identical rationals; a difference of 0.0049 — well
within the 0.01 report tolerance — already reports NOT EQUAL. -/
theorem c9_strict_equality_check :
    (∀ primary secondary : List TimeValue,
      comparisonResult primary secondary = "EQUAL" ↔
        sumColumnH primary = sumColumnH secondary) ∧
    comparisonResult [.num 120] [.num (1200049 / 10000)] = "NOT EQUAL" ∧
    |sumColumnH [.num 120] - sumColumnH [.num (1200049 / 10000)]| ≤ 1 / 100 := by
  refine ⟨?_, by decide, by decide⟩
  intro p s
  unfold comparisonResult
  split_ifs with h
  · exact iff_of_true rfl h
  · constructor
    · intro he; exact absurd he (by decide)
    · intro he; exact absurd he h

/-- Claim C1 counterexample: a configuration whose parse is degenerate (the
fallback fires) does get the default schedule, but the resulting time-slot
range is the hours 8..22, not 8..23 as claimed — the last slot row is
`latestHour - 1 = 22`. -/
theorem c1_default_range_cex :
    scheduleIsDegenerate (parsedScheduleOf cfgDegen) ∧
    (calculateAvailableHours cfgDegen 2 2025).timeRows = intsFromTo 8 22 ∧
    (calculateAvailableHours cfgDegen 2 2025).timeRows ≠ intsFromTo 8 23 := by
  decide

/-- Claim C1 (amended): when the parsed schedule is degenerate (earliest hour
still 24, latest hour still 0, or no weekday entries), the resolver
substitutes the default schedule — all 7 weekdays open 8 / close 23,
`earliestHour = 8`, `latestHour = 23` — and the resulting time-slot range is
the contiguous hours 8 through 22 inclusive (the last slot row is
`latestHour - 1`). -/
theorem c1_default_fallback_amended (cfg : ClubSheet) (monthNum year : ℕ)
    (h : scheduleIsDegenerate (parsedScheduleOf cfg)) :
    (∀ name ∈ dayNamesList,
      lookupDay (calculateAvailableHours cfg monthNum year).days name = some ⟨8, 23⟩) ∧
    (calculateAvailableHours cfg monthNum year).earliestHour = 8 ∧
    (calculateAvailableHours cfg monthNum year).latestHour = 23 ∧
    (calculateAvailableHours cfg monthNum year).timeRows = intsFromTo 8 22 := by
  have hres : resolveSchedule cfg = defaultFallback (parsedScheduleOf cfg) := by
    simp only [resolveSchedule]
    rw [if_pos h]
  refine ⟨?_, ?_, ?_, ?_⟩
  · intro name hn
    simp only [calculateAvailableHours, hres, defaultFallback]
    exact lookup_foldl_upsert_of dayNamesList ⟨8, 23⟩ _ name (Or.inl hn)
  · simp only [calculateAvailableHours, hres, defaultFallback]
    norm_num
  · simp only [calculateAvailableHours, hres, defaultFallback]
  · simp only [calculateAvailableHours, hres, defaultFallback]
    norm_num

/-- Claim C1 witness: the amended fallback conclusion evaluated at the
concrete degenerate configuration and February 2025. -/
theorem c1_default_fallback_amended_wit :
    scheduleIsDegenerate (parsedScheduleOf cfgDegen) ∧
    ((calculateAvailableHours cfgDegen 2 2025).earliestHour = 8 ∧
     (calculateAvailableHours cfgDegen 2 2025).latestHour = 23 ∧
     (calculateAvailableHours cfgDegen 2 2025).timeRows = intsFromTo 8 22) :=
  ⟨by decide, (c1_default_fallback_amended cfgDegen 2 2025 (by decide)).2⟩

/-- Claim C5: an availability-grid cell holds `capacityPerHour` exactly when
the weekday of that day has an opening interval covering the slot hour
(open ≤ hour < close), and 0 otherwise — in particular 0 whenever the weekday
has no schedule entry. -/
theorem c5_availability_cell (cfg : ClubSheet) (monthNum year : ℕ) (r d : ℕ)
    (hr : r < (calculateAvailableHours cfg monthNum year).timeRows.length)
    (hd : d < (calculateAvailableHours cfg monthNum year).daysInMonth) :
    cellAt (calculateAvailableHours cfg monthNum year).availableGrid r d =
      match lookupDay (calculateAvailableHours cfg monthNum year).days
          (buildDayOfWeekCache monthNum year (d + 1)).dayName with
      | some oi =>
        if oi.openH ≤ (calculateAvailableHours cfg monthNum year).timeRows.getD r 0 ∧
            (calculateAvailableHours cfg monthNum year).timeRows.getD r 0 < oi.closeH then
          cfg.maxHoursPerHour
        else 0
      | none => 0 := by
  simp only [calculateAvailableHours] at hr hd ⊢
  exact grid_cell_eq _ _ _ r d hr hd

/-- Claim C5 witness: the cell formula evaluated at the Monday 9-10 schedule,
September 2025, slot 0 (hour 9) and day 1 (a Monday). -/
theorem c5_availability_cell_wit :
    cellAt (calculateAvailableHours cfgMon 9 2025).availableGrid 0 0 =
      match lookupDay (calculateAvailableHours cfgMon 9 2025).days
          (buildDayOfWeekCache 9 2025 (0 + 1)).dayName with
      | some oi =>
        if oi.openH ≤ (calculateAvailableHours cfgMon 9 2025).timeRows.getD 0 0 ∧
            (calculateAvailableHours cfgMon 9 2025).timeRows.getD 0 0 < oi.closeH then
          cfgMon.maxHoursPerHour
        else 0
      | none => 0 :=
  c5_availability_cell cfgMon 9 2025 0 0 (by decide) (by decide)

/-- Claim C7: a booking row whose parsed date lies in a different month or
year than the target leaves the aggregation state untouched, so the booking
grid (and processed count) are the same as without that row. -/
theorem c7_month_filter (monthNum year : ℕ) (timeRows : List Int) (daysInMonth : ℕ)
    (row : BookingRow) (cd : CalendarDate) (hdate : row.dateValue = .val cd)
    (hmm : cd.month ≠ monthNum ∨ cd.year ≠ year) :
    (∀ st, stepBooking monthNum year timeRows daysInMonth st row = st) ∧
    ∀ pre post,
      aggregateBookings monthNum year timeRows daysInMonth (pre ++ row :: post) =
        aggregateBookings monthNum year timeRows daysInMonth (pre ++ post) := by
  have hstep : ∀ st, stepBooking monthNum year timeRows daysInMonth st row = st := by
    intro st
    simp only [stepBooking, hdate]
    by_cases h1 : jsTruthy row.startTime ∧ row.hours ≠ 0
    · rw [if_pos h1, if_neg (by tauto)]
    · rw [if_neg h1]
  exact ⟨hstep, fun pre post =>
    aggregate_skip monthNum year timeRows daysInMonth row hstep pre post⟩

/-- Claim C7 witness: a June 2025 booking row contributes nothing to a
September 2025 aggregation. -/
theorem c7_month_filter_wit :
    aggregateBookings 9 2025 [9] 30 ([] ++ rowJune :: []) =
      aggregateBookings 9 2025 [9] 30 ([] ++ []) :=
  (c7_month_filter 9 2025 [9] 30 rowJune ⟨1, 6, 2025⟩ rfl (Or.inl (by decide))).2 [] []

/-- Claim C8: the at-capacity classification fires exactly when the booked
value equals the availability and the availability is positive — never when
the booked value exceeds it — and a cell is classified closed exactly when
its availability is 0; over-booking is representable: with one court, two
one-hour bookings in the same slot produce a booking-grid cell of 2 against
an availability of 1, and that over-booked run yields no at-capacity cell. -/
theorem c8_capacity_classification :
    (∀ booked avail : ℚ, isAtMaxCapacity booked avail = true ↔ booked = avail ∧ 0 < avail) ∧
    (∀ booked avail : ℚ, avail < booked → isAtMaxCapacity booked avail = false) ∧
    (∀ avail : ℚ, isClosedCell avail = true ↔ avail = 0) ∧
    (cellAt (createHoursDaysTableCore cfgMon 9 2025 [] [] rowsOver).dataGrid 0 0 = 2 ∧
     cellAt (calculateAvailableHours cfgMon 9 2025).availableGrid 0 0 = 1 ∧
     (classifyCells (createHoursDaysTableCore cfgMon 9 2025 [] [] rowsOver).timeRows 30
        (createHoursDaysTableCore cfgMon 9 2025 [] [] rowsOver).dataGrid
        (calculateAvailableHours cfgMon 9 2025).availableGrid).2 = []) := by
  refine ⟨?_, ?_, ?_, by decide, by decide, by decide⟩
  · intro booked avail
    unfold isAtMaxCapacity
    constructor
    · intro hb
      simp only [Bool.and_eq_true, decide_eq_true_eq] at hb
      exact ⟨hb.2, hb.1.2⟩
    · intro hb
      simp only [Bool.and_eq_true, decide_eq_true_eq]
      refine ⟨⟨?_, hb.2⟩, hb.1⟩
      rw [hb.1]
      exact ne_of_gt hb.2
  · intro booked avail hlt
    unfold isAtMaxCapacity
    have hne : booked ≠ avail := ne_of_gt hlt
    simp [hne]
  · intro avail
    unfold isClosedCell
    simp

/-- Claim C10: a booking row with a falsy date, start-time or hours cell —
in particular hours 0, or a start time that is the number 0 — is skipped
entirely: it changes neither the booking grid nor the processed-row count. -/
theorem c10_falsy_row_skipped (monthNum year : ℕ) (timeRows : List Int) (daysInMonth : ℕ)
    (row : BookingRow)
    (h : row.dateValue = .empty ∨ row.hours = 0 ∨ ¬jsTruthy row.startTime) :
    (∀ st, stepBooking monthNum year timeRows daysInMonth st row = st) ∧
    ∀ pre post,
      aggregateBookings monthNum year timeRows daysInMonth (pre ++ row :: post) =
        aggregateBookings monthNum year timeRows daysInMonth (pre ++ post) := by
  have hstep : ∀ st, stepBooking monthNum year timeRows daysInMonth st row = st := by
    intro st
    cases hdv : row.dateValue with
    | empty => simp only [stepBooking, hdv]
    | val cd =>
      rcases h with h | h | h
      · rw [hdv] at h; cases h
      · simp only [stepBooking, hdv]
        rw [if_neg (by tauto)]
      · simp only [stepBooking, hdv]
        rw [if_neg (by tauto)]
  exact ⟨hstep, fun pre post =>
    aggregate_skip monthNum year timeRows daysInMonth row hstep pre post⟩

/-- Claim C10 witness: a row with hours 0 (start time and date present)
contributes nothing to the aggregation. -/
theorem c10_falsy_row_skipped_wit :
    aggregateBookings 9 2025 [9] 30 ([] ++ rowZeroHours :: []) =
      aggregateBookings 9 2025 [9] 30 ([] ++ []) :=
  (c10_falsy_row_skipped 9 2025 [9] 30 rowZeroHours (Or.inr (Or.inl rfl))).2 [] []
